import Mathlib

set_option maxRecDepth 8192

/-!
Verification development for the simple-stream framed-message library.

Buffers are modelled as `List Nat` whose elements are byte values (< 256 in
every theorem's hypotheses). Machine-integer casts and wrap-around are made
explicit: `as u8` becomes `% 2^8`, u16 addition wraps with `% 2^16`, the u32
checksum accumulator wraps with `% 2^32` (release-mode semantics), and the
bit operations `<<`, `>>`, `&`, `|` of the source are transcribed as
`<<<`, `>>>`, `&&&`, `|||` on `Nat`.

Each codec's `from_bytes(buf: &mut Vec<u8>) -> Option<Box<Frame>>` is modelled
as a pure function `List Nat → Option Frame × List Nat` returning the decode
result together with the buffer contents after the call.
-/

namespace SimpleStream

/-! ### Simple codec (src/frame/simple.rs) -/

/-- Guard-byte bitflags of the Simple codec: START = 0b00000001,
END = 0b00010111; `from_bits` accepts any value whose bits all lie inside
the union of the declared flags. -/
def FrameGuard.START : Nat := 0b00000001

def FrameGuard.END : Nat := 0b00010111

def FrameGuard.ALL : Nat := FrameGuard.START ||| FrameGuard.END

/-- bitflags `FrameGuard::from_bits`: `Some` exactly when no unknown bits are set. -/
def FrameGuard.from_bits (b : Nat) : Option Nat :=
  if b &&& FrameGuard.ALL = b then some b else none

structure SimpleFrame where
  start_guard : Nat
  payload_len : Nat
  payload : List Nat
  end_guard : Nat
deriving DecidableEq

/-- `SimpleFrame::new`: `payload_len` is `buf.len() as u16`. -/
def SimpleFrame.new (buf : List Nat) : SimpleFrame :=
  { start_guard := FrameGuard.START
    payload_len := buf.length % 2 ^ 16
    payload := buf
    end_guard := FrameGuard.END }

/-- `SimpleFrame::to_bytes`: START, 2 big-endian length bytes, payload, END. -/
def SimpleFrame.to_bytes (f : SimpleFrame) : List Nat :=
  f.start_guard :: ((f.payload_len >>> 8) % 2 ^ 8) :: (f.payload_len % 2 ^ 8) ::
    (f.payload ++ [f.end_guard])

/-- `SimpleFrame::len_as_vec`: `(self.payload_len + 4) as usize` where the
addition is performed in u16 and therefore wraps. -/
def SimpleFrame.len_as_vec (f : SimpleFrame) : Nat :=
  (f.payload_len + 4) % 2 ^ 16

/-- `SimpleFrameBuilder::from_bytes`. A failed start-guard `from_bits` only
logs an error and parsing continues (the frame keeps the `Default` start
guard); a failed end-guard `from_bits` returns `None` leaving the buffer
untouched. -/
def SimpleFrameBuilder.from_bytes (buf : List Nat) : Option SimpleFrame × List Nat :=
  if buf.length < 5 then (none, buf) else
  let start_guard :=
    match FrameGuard.from_bits (buf.getD 0 0) with
    | some s => s
    | none => FrameGuard.START
  let payload_len := (((buf.getD 1 0) <<< 8) &&& 0xFFFF) ||| (buf.getD 2 0)
  if buf.length - 4 < payload_len then (none, buf) else
  let payload := (buf.drop 3).take payload_len
  match FrameGuard.from_bits (buf.getD (payload_len + 3) 0) with
  | some end_guard =>
      let frame : SimpleFrame := { start_guard, payload_len, payload, end_guard }
      (some frame, buf.drop frame.len_as_vec)
  | none => (none, buf)

/-! ### Checksum32 codec (src/frame/checksum32.rs) -/

structure Checksum32Frame where
  payload_len : Nat
  payload : List Nat
  checksum : Nat
deriving DecidableEq

/-- The running u32 checksum accumulation `checksum += byte as u32`
(wrapping, release-mode semantics). -/
def c32sum (buf : List Nat) : Nat :=
  buf.foldl (fun c b => (c + b) % 2 ^ 32) 0

/-- `Checksum32Frame::new`. -/
def Checksum32Frame.new (buf : List Nat) : Checksum32Frame :=
  { payload_len := buf.length
    payload := buf
    checksum := c32sum buf }

/-- `Checksum32Frame::to_bytes`: 4 big-endian length bytes, payload,
4 big-endian checksum bytes. -/
def Checksum32Frame.to_bytes (f : Checksum32Frame) : List Nat :=
  ((f.payload_len >>> 24) % 2 ^ 8) :: ((f.payload_len >>> 16) % 2 ^ 8) ::
    ((f.payload_len >>> 8) % 2 ^ 8) :: (f.payload_len % 2 ^ 8) ::
    (f.payload ++
      [(f.checksum >>> 24) % 2 ^ 8, (f.checksum >>> 16) % 2 ^ 8,
       (f.checksum >>> 8) % 2 ^ 8, f.checksum % 2 ^ 8])

/-- `Checksum32Frame::len_as_vec`. -/
def Checksum32Frame.len_as_vec (f : Checksum32Frame) : Nat :=
  f.payload_len + 8

/-- `Checksum32FrameBuilder::from_bytes`. On a checksum mismatch the source
executes `*buf = Vec::new()` (the whole buffer is discarded) and returns
`None`. -/
def Checksum32FrameBuilder.from_bytes (buf : List Nat) : Option Checksum32Frame × List Nat :=
  if buf.length < 9 then (none, buf) else
  let payload_len :=
    (((((buf.getD 0 0) <<< 24) &&& 0xFFFFFFFF) |||
      (((buf.getD 1 0) <<< 16) &&& 0xFFFFFFFF)) |||
      (((buf.getD 2 0) <<< 8) &&& 0xFFFFFFFF)) ||| (buf.getD 3 0)
  if buf.length - 8 < payload_len then (none, buf) else
  let payload := (buf.drop 4).take payload_len
  let checksum := c32sum payload
  let maybe_checksum :=
    (((((buf.getD (payload_len + 4) 0) <<< 24) &&& 0xFFFFFFFF) |||
      (((buf.getD (payload_len + 4 + 1) 0) <<< 16) &&& 0xFFFFFFFF)) |||
      (((buf.getD (payload_len + 4 + 2) 0) <<< 8) &&& 0xFFFFFFFF)) |||
      (buf.getD (payload_len + 4 + 3) 0)
  if maybe_checksum ≠ checksum then (none, []) else
  let frame : Checksum32Frame := { payload_len, payload, checksum }
  (some frame, buf.drop frame.len_as_vec)

/-! ### WebSocket codec (src/frame/websocket.rs) -/

def OpCode.CONTINUATION : Nat := 0b00000000
def OpCode.TEXT : Nat := 0b00000001
def OpCode.BINARY : Nat := 0b00000010
def OpCode.CLOSE : Nat := 0b00001000
def OpCode.PING : Nat := 0b00001001
def OpCode.PONG : Nat := 0b00001010

/-- Union of all declared `OpCode` bitflags. -/
def OpCode.ALL : Nat := 0b00001011

/-- bitflags `OpCode::from_bits`. -/
def OpCode.from_bits (b : Nat) : Option Nat :=
  if b &&& OpCode.ALL = b then some b else none

inductive FrameType where
  | Control
  | Data
deriving DecidableEq

inductive OpType where
  | Continuation
  | Text
  | Binary
  | Close
  | Ping
  | Pong
deriving DecidableEq

structure WsHeader where
  op_code : Nat
  mask : Bool
  payload_len : Nat
  masking_key : List Nat
deriving DecidableEq

/-- `WebSocketFrame` with the single-field `Payload` struct flattened into
`payload_data` (= `self.payload.data` in the source). -/
structure WebSocketFrame where
  frame_type : FrameType
  header : WsHeader
  payload_data : List Nat
deriving DecidableEq

def OpType.bits : OpType → Nat
  | .Continuation => OpCode.CONTINUATION
  | .Text => OpCode.TEXT
  | .Binary => OpCode.BINARY
  | .Close => OpCode.CLOSE
  | .Ping => OpCode.PING
  | .Pong => OpCode.PONG

/-- `WebSocketFrame::new`: mask is always false, `payload_len` is
`buf.len() as u64`. -/
def WebSocketFrame.new (buf : List Nat) (frame_type : FrameType) (op_type : OpType) :
    WebSocketFrame :=
  { frame_type
    header :=
      { op_code := op_type.bits
        mask := false
        payload_len := buf.length % 2 ^ 64
        masking_key := [0, 0, 0, 0] }
    payload_data := buf }

/-- `WebSocketFrame::payload_unmasked`: XOR every payload byte with
`key[i % 4]`. -/
def WebSocketFrame.payload_unmasked (f : WebSocketFrame) : List Nat :=
  (List.range f.payload_data.length).map
    (fun x => (f.payload_data.getD x 0) ^^^ (f.header.masking_key.getD (x % 4) 0))

/-- `Frame::payload` for `WebSocketFrame`: unmask on demand when the mask
bit is set. -/
def WebSocketFrame.payload_vec (f : WebSocketFrame) : List Nat :=
  if f.header.mask then f.payload_unmasked else f.payload_data

/-- `WebSocketFrame::to_bytes`. Note that the extended-length bytes are
emitted only when `next_byte` (mask bit ORed in) equals 126 or 127 exactly,
so a masked frame never emits them. -/
def WebSocketFrame.to_bytes (f : WebSocketFrame) : List Nat :=
  let FIN : Nat := 0b10000000
  let op_code_with_fin := FIN ||| f.header.op_code
  let mask_bit : Nat := if f.header.mask then 0b10000000 else 0b00000000
  let next_7_bits : Nat :=
    if f.header.payload_len ≤ 125 then f.header.payload_len % 2 ^ 8
    else if f.header.payload_len ≤ 65535 then 126
    else 127
  let next_byte := mask_bit ||| next_7_bits
  let ext : List Nat :=
    if next_byte = 126 then
      [((f.header.payload_len % 2 ^ 16) >>> 8) % 2 ^ 8, f.header.payload_len % 2 ^ 8]
    else if next_byte = 127 then
      [(f.header.payload_len >>> 56) % 2 ^ 8, (f.header.payload_len >>> 48) % 2 ^ 8,
       (f.header.payload_len >>> 40) % 2 ^ 8, (f.header.payload_len >>> 32) % 2 ^ 8,
       (f.header.payload_len >>> 24) % 2 ^ 8, (f.header.payload_len >>> 16) % 2 ^ 8,
       (f.header.payload_len >>> 8) % 2 ^ 8, f.header.payload_len % 2 ^ 8]
    else []
  let key : List Nat := if f.header.mask then f.header.masking_key else []
  op_code_with_fin :: next_byte :: (ext ++ (key ++ f.payload_data))

/-- `WebSocketFrame::len_as_vec`. The 16-bit extended-length class is counted
only for `125 < payload_len < 65535` (strict, so 65535 itself is counted as
needing no extended bytes). -/
def WebSocketFrame.len_as_vec (f : WebSocketFrame) : Nat :=
  1 + 1 +
    (if 125 < f.header.payload_len ∧ f.header.payload_len < 65535 then 2
     else if 65535 < f.header.payload_len then 8
     else 0) +
    (if f.header.mask then 4 else 0) +
    f.header.payload_len

/-- The if/else chain of `WebSocketFrameBuilder::from_bytes` that classifies
a valid opcode into a `FrameType`; the two `from_bits`-valid opcode values
0b0011 and 0b1011 hit `unreachable!()` in the source (a process abort) and
are modelled as `none` — no claim exercises them. -/
def WebSocketFrameBuilder.frame_type_of (op_code : Nat) : Option FrameType :=
  if op_code = OpCode.CONTINUATION then some .Data
  else if op_code = OpCode.TEXT then some .Data
  else if op_code = OpCode.BINARY then some .Data
  else if op_code = OpCode.CLOSE then some .Control
  else if op_code = OpCode.PING then some .Control
  else if op_code = OpCode.PONG then some .Control
  else none

/-- `WebSocketFrameBuilder::from_bytes`. -/
def WebSocketFrameBuilder.from_bytes (buf : List Nat) : Option WebSocketFrame × List Nat :=
  if buf.length < 5 then (none, buf) else
  let FIN_CLEAR_MASK : Nat := 0b00001111
  let op_byte := buf.getD 0 0 &&& FIN_CLEAR_MASK
  match OpCode.from_bits op_byte with
  | none => (none, buf)
  | some op_code =>
    match WebSocketFrameBuilder.frame_type_of op_code with
    | none => (none, buf)
    | some frame_type =>
      let mask : Bool := decide (0b10000000 &&& buf.getD 1 0 > 0)
      let payload_len7 := 0b01111111 &&& buf.getD 1 0
      let finish : Nat → Nat → Option WebSocketFrame × List Nat :=
        fun payload_len base_offset =>
          if mask ∧ buf.length ≤ base_offset + 4 then (none, buf) else
          let masking_key :=
            if mask then
              [buf.getD base_offset 0, buf.getD (base_offset + 1) 0,
               buf.getD (base_offset + 2) 0, buf.getD (base_offset + 3) 0]
            else [0, 0, 0, 0]
          let next_offset := if mask then base_offset + 4 else base_offset
          if buf.length < next_offset + payload_len then (none, buf) else
          let data := (buf.drop next_offset).take payload_len
          let frame : WebSocketFrame :=
            { frame_type
              header := { op_code, mask, payload_len, masking_key }
              payload_data := data }
          (some frame, buf.drop frame.len_as_vec)
      if payload_len7 ≤ 125 then finish payload_len7 2
      else if payload_len7 = 126 then
        finish (((buf.getD 2 0) <<< 8) ||| (buf.getD 3 0)) 4
      else
        if buf.length < 10 then (none, buf) else
        finish
          ((((((((buf.getD 2 0) <<< 56 ||| (buf.getD 3 0) <<< 48) |||
            (buf.getD 4 0) <<< 40) ||| (buf.getD 5 0) <<< 32) |||
            (buf.getD 6 0) <<< 24) ||| (buf.getD 7 0) <<< 16) |||
            (buf.getD 8 0) <<< 8) ||| (buf.getD 9 0)) 10

/-! ### Stream engine (src/plain.rs, src/secure.rs)

The duplex channel is modelled as a finite script of read (resp. write)
outcomes consumed in order. A `Vec<u8>` receive or transmit buffer is passed
in and returned explicitly. Loops of the source that have no intrinsic bound
(the read loop, and the decode drain loop) are embedded as recursion over the
event script (resp. an explicit fuel); the marker outcome `stuck` means the
supplied script or fuel was exhausted while the source loop was still
running, i.e. no amount of the scripted behaviour made the call return. -/

/-- Outcome of one `self.inner.read(&mut buf)` call on the plain channel:
`bytes` data read (a zero-length read models EOF `Ok(0)`), an error of kind
`WouldBlock`, or any other error. -/
inductive ReadEvent where
  | bytes (bs : List Nat)
  | errWouldBlock
  | errFatal
deriving DecidableEq

inductive ErrKind where
  | wouldBlock
  | unexpectedEof
  | other
deriving DecidableEq

inductive NbRecvOut (F : Type) where
  | frames (fs : List F)
  | wouldBlock
  | fatal (k : ErrKind)
  | stuck
deriving DecidableEq

/-- Result of the read half of `Plain::nb_recv`: the loop broke on a
`WouldBlock` error (drained), returned a fatal error, or consumed the whole
script without terminating. -/
inductive ReadLoopOut where
  | drained (buf : List Nat)
  | fatalErr (buf : List Nat)
  | noMoreEvents (buf : List Nat)
deriving DecidableEq

/-- The read loop of `Plain::nb_recv` (src/plain.rs lines 106-120): read until
a `WouldBlock` error breaks the loop; any other error returns immediately; a
successful read of `num_read` bytes (including zero) extends `rx_buf` and
loops again. -/
def Plain.nb_read_loop (rx_buf : List Nat) : List ReadEvent → ReadLoopOut
  | [] => .noMoreEvents rx_buf
  | .bytes bs :: evs => Plain.nb_read_loop (rx_buf ++ bs) evs
  | .errWouldBlock :: _ => .drained rx_buf
  | .errFatal :: _ => .fatalErr rx_buf

/-- The decode drain loop `while let Some(boxed_frame) = FB::from_bytes(..)`
of `Plain::nb_recv`, with explicit fuel; the final `Bool` is true when the
loop terminated (decode returned `None`) within the given fuel. -/
def drain_frames {F : Type} (dec : List Nat → Option F × List Nat) :
    Nat → List Nat → List F → List F × List Nat × Bool
  | 0, buf, acc => (acc.reverse, buf, false)
  | fuel + 1, buf, acc =>
    match dec buf with
    | (none, buf2) => (acc.reverse, buf2, true)
    | (some f, buf2) => drain_frames dec fuel buf2 (f :: acc)

/-- `Plain::nb_recv`: drain the channel, then decode as many frames as
present; zero decoded frames is reported as a `WouldBlock` error. -/
def Plain.nb_recv {F : Type} (dec : List Nat → Option F × List Nat) (fuel : Nat)
    (rx_buf : List Nat) (evs : List ReadEvent) : NbRecvOut F × List Nat :=
  match Plain.nb_read_loop rx_buf evs with
  | .fatalErr b => (.fatal .other, b)
  | .noMoreEvents b => (.stuck, b)
  | .drained b =>
    match drain_frames dec fuel b [] with
    | (fs, b2, true) => if fs.length > 0 then (.frames fs, b2) else (.wouldBlock, b2)
    | (_, b2, false) => (.stuck, b2)

inductive BRecvOut (F : Type) where
  | frame (f : F)
  | fatalErr
  | noMoreEvents
deriving DecidableEq

/-- The read-then-decode loop of `Plain::b_recv` (src/plain.rs lines 65-84):
any read error (of any kind) propagates; a successful read (including a
zero-byte EOF read) extends the buffer and one decode is attempted. -/
def Plain.b_recv_loop {F : Type} (dec : List Nat → Option F × List Nat)
    (rx_buf : List Nat) : List ReadEvent → BRecvOut F × List Nat
  | [] => (.noMoreEvents, rx_buf)
  | .bytes bs :: evs =>
    let rx2 := rx_buf ++ bs
    match dec rx2 with
    | (some f, rx3) => (.frame f, rx3)
    | (none, rx3) => Plain.b_recv_loop dec rx3 evs
  | .errWouldBlock :: _ => (.fatalErr, rx_buf)
  | .errFatal :: _ => (.fatalErr, rx_buf)

/-- `Plain::b_recv`: first try to decode from bytes already buffered, then
enter the read loop. -/
def Plain.b_recv {F : Type} (dec : List Nat → Option F × List Nat)
    (rx_buf : List Nat) (evs : List ReadEvent) : BRecvOut F × List Nat :=
  match dec rx_buf with
  | (some f, rx2) => (.frame f, rx2)
  | (none, rx2) => Plain.b_recv_loop dec rx2 evs

/-- Outcome of the single `self.inner.write(&out_buf)` call in
`Plain::nb_send`. -/
inductive WriteResult where
  | wrote (n : Nat)
  | errWouldBlock
  | errFatal
deriving DecidableEq

inductive SendOut where
  | ok
  | err (k : ErrKind)
deriving DecidableEq

/-- `Plain::nb_send` (src/plain.rs lines 136-163): append the frame's encoded
bytes to `tx_buf`, swap `tx_buf` out (leaving it empty), attempt one write.
On a write error of any kind the error is returned with `tx_buf` still
empty — the swapped-out bytes are not restored. On a short write `Ok(n)` with
`0 < n < out_buf.len()` the unwritten suffix is put back into `tx_buf` and
`WouldBlock` is reported; `Ok(0)` is a fatal error. `Secure::nb_send` is
line-for-line identical with `WantWrite` playing the role of the
`WouldBlock` error kind. -/
def Plain.nb_send (tx_buf frame_bytes : List Nat) (w : WriteResult) :
    SendOut × List Nat :=
  let out_buf := tx_buf ++ frame_bytes
  match w with
  | .errWouldBlock => (.err .wouldBlock, [])
  | .errFatal => (.err .other, [])
  | .wrote n =>
    if n = 0 then (.err .other, [])
    else if n < out_buf.length then (.err .wouldBlock, out_buf.drop n)
    else (.ok, [])

/-- Outcome of one `ssl_read` call on the TLS channel
(src/secure.rs lines 108-139). -/
inductive SslReadEvent where
  | bytes (bs : List Nat)
  | zeroReturn
  | wantRead
  | wantX509
  | streamErr
  | sslErr
deriving DecidableEq

inductive SecReadLoopOut where
  | drained (buf : List Nat)
  | fatalErr (k : ErrKind) (buf : List Nat)
  | noMoreEvents (buf : List Nat)
deriving DecidableEq

/-- The read loop of `Secure::nb_recv`: `ZeroReturn` (clean TLS close) maps
to a fatal `UnexpectedEof` error, `WantRead` breaks the loop, the remaining
error variants are fatal. -/
def Secure.nb_read_loop (rx_buf : List Nat) : List SslReadEvent → SecReadLoopOut
  | [] => .noMoreEvents rx_buf
  | .bytes bs :: evs => Secure.nb_read_loop (rx_buf ++ bs) evs
  | .zeroReturn :: _ => .fatalErr .unexpectedEof rx_buf
  | .wantRead :: _ => .drained rx_buf
  | .wantX509 :: _ => .fatalErr .other rx_buf
  | .streamErr :: _ => .fatalErr .other rx_buf
  | .sslErr :: _ => .fatalErr .other rx_buf

/-- `Secure::nb_recv`: same drain-then-decode shape as `Plain::nb_recv`. -/
def Secure.nb_recv {F : Type} (dec : List Nat → Option F × List Nat) (fuel : Nat)
    (rx_buf : List Nat) (evs : List SslReadEvent) : NbRecvOut F × List Nat :=
  match Secure.nb_read_loop rx_buf evs with
  | .fatalErr k b => (.fatal k, b)
  | .noMoreEvents b => (.stuck, b)
  | .drained b =>
    match drain_frames dec fuel b [] with
    | (fs, b2, true) => if fs.length > 0 then (.frames fs, b2) else (.wouldBlock, b2)
    | (_, b2, false) => (.stuck, b2)

/-- The canonical `FrameType` that `from_bytes` assigns to each opcode. -/
def OpType.canonical_frame_type : OpType → FrameType
  | .Continuation => .Data
  | .Text => .Data
  | .Binary => .Data
  | .Close => .Control
  | .Ping => .Control
  | .Pong => .Control

/-- The declared payload length read by `Checksum32FrameBuilder::from_bytes`.  -/
def c32_declared_len (buf : List Nat) : Nat :=
  (((((buf.getD 0 0) <<< 24) &&& 0xFFFFFFFF) |||
    (((buf.getD 1 0) <<< 16) &&& 0xFFFFFFFF)) |||
    (((buf.getD 2 0) <<< 8) &&& 0xFFFFFFFF)) ||| (buf.getD 3 0)

/-! ### Arithmetic and list helper lemmas -/

lemma shiftLeft_or_eq_add {a b k : Nat} (hb : b < 2 ^ k) :
    (a <<< k) ||| b = a * 2 ^ k + b := by
  rw [Nat.shiftLeft_eq, Nat.mul_comm a (2 ^ k)]
  exact (Nat.mul_add_lt_is_or hb a).symm

lemma hi_or_lo {c b m : Nat} (hb : b < 2 ^ m) : (c * 2 ^ m) ||| b = c * 2 ^ m + b := by
  rw [Nat.mul_comm c (2 ^ m)]
  exact (Nat.mul_add_lt_is_or hb c).symm

lemma and_ffff_of_lt {x : Nat} (h : x < 65536) : x &&& 0xFFFF = x := by
  have he : (0xFFFF : Nat) = 2 ^ 16 - 1 := by norm_num
  rw [he]
  exact Nat.and_pow_two_sub_one_of_lt_two_pow (by norm_num at h ⊢; omega)

lemma and_ffffffff_of_lt {x : Nat} (h : x < 4294967296) : x &&& 0xFFFFFFFF = x := by
  have he : (0xFFFFFFFF : Nat) = 2 ^ 32 - 1 := by norm_num
  rw [he]
  exact Nat.and_pow_two_sub_one_of_lt_two_pow (by norm_num at h ⊢; omega)

lemma getD_cons3 (a b c : Nat) (l : List Nat) (i d : Nat) :
    (a :: b :: c :: l).getD (i + 3) d = l.getD i d := rfl

lemma drop_cons3 (a b c : Nat) (l : List Nat) (i : Nat) :
    (a :: b :: c :: l).drop (i + 3) = l.drop i := rfl

lemma getD_append_self {p l2 : List Nat} (d : Nat) :
    (p ++ l2).getD p.length d = l2.getD 0 d := by
  simp [List.getD_eq_getElem?_getD, List.getElem?_append_right (Nat.le_refl p.length)]

lemma drop_append_one {p : List Nat} {a : Nat} {t : List Nat} :
    (p ++ (a :: t)).drop (p.length + 1) = t := by
  rw [← List.drop_drop, List.drop_left' rfl]
  rfl

/-- The Simple codec round-trip: for a payload of length between 1 and
65531, decoding a buffer that starts with the encoding succeeds, yields the
frame back and consumes exactly the encoded bytes. -/
lemma pow8 : (2 : Nat) ^ 8 = 256 := by norm_num

lemma pow16 : (2 : Nat) ^ 16 = 65536 := by norm_num

lemma pow32 : (2 : Nat) ^ 32 = 4294967296 := by norm_num

lemma pow64 : (2 : Nat) ^ 64 = 18446744073709551616 := by norm_num

/-- The Simple codec round-trip: for a payload of length between 1 and
65531, decoding a buffer that starts with the encoding succeeds, yields the
frame back and consumes exactly the encoded bytes. -/
lemma simple_decode_encode (p t : List Nat) (h1 : 1 ≤ p.length) (h2 : p.length ≤ 65531) :
    SimpleFrameBuilder.from_bytes ((SimpleFrame.new p).to_bytes ++ t) =
      (some { start_guard := 1, payload_len := p.length, payload := p,
              end_guard := 23 }, t) := by
  have hmod : p.length % 2 ^ 16 = p.length := Nat.mod_eq_of_lt (by rw [pow16]; omega)
  have hd1 : (p.length % 2 ^ 16) >>> 8 % 2 ^ 8 = p.length / 256 := by
    rw [hmod, Nat.shiftRight_eq_div_pow, pow8]
    exact Nat.mod_eq_of_lt (by omega)
  have hd2 : (p.length % 2 ^ 16) % 2 ^ 8 = p.length % 256 := by
    rw [hmod, pow8]
  have henc : (SimpleFrame.new p).to_bytes ++ t
      = 1 :: (p.length / 256) :: (p.length % 256) :: (p ++ (23 :: t)) := by
    simp only [SimpleFrame.new, SimpleFrame.to_bytes, FrameGuard.START, FrameGuard.END, hd1,
      hd2, List.cons_append, List.append_assoc, List.singleton_append, List.nil_append]
  rw [henc]
  have hlen : (1 :: (p.length / 256) :: (p.length % 256) :: (p ++ (23 :: t))).length
      = p.length + t.length + 4 := by simp; omega
  have hplen : (((p.length / 256) <<< 8) &&& 0xFFFF) ||| (p.length % 256) = p.length := by
    rw [Nat.shiftLeft_eq]
    rw [and_ffff_of_lt (by rw [pow8]; omega)]
    rw [hi_or_lo (by rw [pow8]; omega)]
    rw [pow8]
    omega
  simp only [SimpleFrameBuilder.from_bytes, hlen, List.getD_cons_zero, List.getD_cons_succ,
    hplen]
  rw [if_neg (by omega), if_neg (by omega)]
  rw [getD_append_self]
  have hfb1 : FrameGuard.from_bits 1 = some 1 := by decide
  have hfb23 : FrameGuard.from_bits 23 = some 23 := by decide
  simp only [List.getD_cons_zero, hfb1, hfb23, List.drop_succ_cons, List.drop_zero,
    List.take_left' rfl]
  have hlav : SimpleFrame.len_as_vec
      { start_guard := 1, payload_len := p.length, payload := p, end_guard := 23 }
      = (p.length + 1) + 3 := by
    simp only [SimpleFrame.len_as_vec]
    rw [pow16]
    omega
  rw [hlav, drop_cons3, drop_append_one]

lemma getD_cons4 (a b c d : Nat) (l : List Nat) (i e : Nat) :
    (a :: b :: c :: d :: l).getD (i + 4) e = l.getD i e := rfl

lemma drop_cons4 (a b c d : Nat) (l : List Nat) (i : Nat) :
    (a :: b :: c :: d :: l).drop (i + 4) = l.drop i := rfl

lemma getD_append_add {p l2 : List Nat} (k d : Nat) :
    (p ++ l2).getD (p.length + k) d = l2.getD k d := by
  simp [List.getD_eq_getElem?_getD, List.getElem?_append_right (Nat.le_add_right p.length k)]

lemma drop_append_four {p : List Nat} {a b c d : Nat} {t : List Nat} :
    (p ++ (a :: b :: c :: d :: t)).drop (p.length + 4) = t := by
  rw [← List.drop_drop, List.drop_left' rfl]
  rfl

/-- The wrapping u32 accumulator never leaves `[0, 2^32)`. -/
lemma c32sum_lt (p : List Nat) : c32sum p < 2 ^ 32 := by
  have key : ∀ (xs : List Nat) (acc : Nat), acc < 2 ^ 32 →
      xs.foldl (fun c b => (c + b) % 2 ^ 32) acc < 2 ^ 32 := by
    intro xs
    induction xs with
    | nil => intro acc h; simpa using h
    | cons x xs ih =>
      intro acc h
      exact ih _ (Nat.mod_lt _ (by norm_num))
  exact key p 0 (by norm_num)

/-- Reassembling a u32 value from its four big-endian bytes through the
masked OR chain of `Checksum32FrameBuilder::from_bytes`. -/
lemma be32_reconstruct {v : Nat} (hv : v < 4294967296) :
    (((((v >>> 24 % 2 ^ 8) <<< 24) &&& 0xFFFFFFFF) |||
      (((v >>> 16 % 2 ^ 8) <<< 16) &&& 0xFFFFFFFF)) |||
      (((v >>> 8 % 2 ^ 8) <<< 8) &&& 0xFFFFFFFF)) ||| (v % 2 ^ 8) = v := by
  have e24 : (2 : Nat) ^ 24 = 16777216 := by norm_num
  have e16b : (2 : Nat) ^ 16 = 65536 := by norm_num
  simp only [Nat.shiftRight_eq_div_pow, Nat.shiftLeft_eq, pow8, e24, e16b]
  rw [and_ffffffff_of_lt (by omega), and_ffffffff_of_lt (by omega),
    and_ffffffff_of_lt (by omega)]
  rw [show v / 16777216 % 256 * 16777216 = (v / 16777216 % 256) * 2 ^ 24 from by
    rw [e24]]
  rw [hi_or_lo (by rw [e24]; omega)]
  rw [show v / 16777216 % 256 * 2 ^ 24 + v / 65536 % 256 * 65536
      = (v / 16777216 % 256 * 256 + v / 65536 % 256) * 2 ^ 16 from by rw [e24, e16b]; ring]
  rw [hi_or_lo (by rw [e16b]; omega)]
  rw [show (v / 16777216 % 256 * 256 + v / 65536 % 256) * 2 ^ 16 + v / 256 % 256 * 256
      = ((v / 16777216 % 256 * 256 + v / 65536 % 256) * 256 + v / 256 % 256) * 2 ^ 8 from by
    rw [e16b, pow8]; ring]
  rw [hi_or_lo (by rw [pow8]; omega)]
  rw [pow8]
  omega

/-- The Checksum32 codec round-trip: for a nonempty payload whose length
fits the 32-bit length field, decoding a buffer that starts with the
encoding succeeds, yields the frame back and consumes exactly the encoded
bytes. -/
lemma c32_decode_encode (p t : List Nat) (h1 : 1 ≤ p.length)
    (h2 : p.length < 4294967296) :
    Checksum32FrameBuilder.from_bytes ((Checksum32Frame.new p).to_bytes ++ t) =
      (some (Checksum32Frame.new p), t) := by
  have hclt : c32sum p < 4294967296 := by have := c32sum_lt p; rw [pow32] at this; omega
  have henc : (Checksum32Frame.new p).to_bytes ++ t
      = (p.length >>> 24 % 2 ^ 8) :: (p.length >>> 16 % 2 ^ 8) :: (p.length >>> 8 % 2 ^ 8) ::
        (p.length % 2 ^ 8) ::
        (p ++ ((c32sum p >>> 24 % 2 ^ 8) :: (c32sum p >>> 16 % 2 ^ 8) ::
          (c32sum p >>> 8 % 2 ^ 8) :: (c32sum p % 2 ^ 8) :: t)) := by
    simp only [Checksum32Frame.new, Checksum32Frame.to_bytes, List.cons_append,
      List.append_assoc, List.nil_append]
  rw [henc]
  have hlen : ((p.length >>> 24 % 2 ^ 8) :: (p.length >>> 16 % 2 ^ 8) ::
      (p.length >>> 8 % 2 ^ 8) :: (p.length % 2 ^ 8) ::
      (p ++ ((c32sum p >>> 24 % 2 ^ 8) :: (c32sum p >>> 16 % 2 ^ 8) ::
        (c32sum p >>> 8 % 2 ^ 8) :: (c32sum p % 2 ^ 8) :: t))).length
      = p.length + t.length + 8 := by
    simp
    omega
  simp only [Checksum32FrameBuilder.from_bytes, hlen, List.getD_cons_zero, List.getD_cons_succ,
    getD_append_self, getD_append_add, be32_reconstruct h2, be32_reconstruct hclt]
  rw [if_neg (by omega), if_neg (by omega)]
  simp only [List.getD_cons_zero, List.getD_cons_succ, List.drop_succ_cons, List.drop_zero,
    List.take_left' rfl, getD_append_self, getD_append_add, be32_reconstruct hclt]
  rw [if_neg (by simp)]
  have hlav : Checksum32Frame.len_as_vec
      { payload_len := p.length, payload := p, checksum := c32sum p }
      = p.length + 4 + 4 := rfl
  rw [hlav, drop_cons4, drop_append_four]
  simp only [Checksum32Frame.new]

lemma and128_eq_zero {n : Nat} (h : n < 128) : 128 &&& n = 0 := by
  rw [Nat.and_comm]
  rw [show (128 : Nat) = 2 ^ 7 from by norm_num]
  rw [Nat.and_two_pow]
  have h7 : n < 2 ^ 7 := by norm_num; exact h
  rw [Nat.testBit_lt_two_pow h7]
  simp

lemma and127_eq_self {n : Nat} (h : n < 128) : 127 &&& n = n := by
  rw [Nat.and_comm]
  rw [show (127 : Nat) = 2 ^ 7 - 1 from by norm_num]
  rw [Nat.and_pow_two_sub_one_eq_mod]
  exact Nat.mod_eq_of_lt (by norm_num; exact h)

lemma mul_pow_lt_pow {b s e : Nat} (hb : b < 2 ^ e) : b * 2 ^ s < 2 ^ (e + s) := by
  rw [Nat.pow_add]
  exact (Nat.mul_lt_mul_right (Nat.two_pow_pos s)).mpr hb

lemma mul_pow8_lt_pow {b s : Nat} (hb : b < 2 ^ 8) (m : Nat) (hm : 8 + s = m) :
    b * 2 ^ s < 2 ^ m := hm ▸ mul_pow_lt_pow hb

/-- Reassembling a u16 value from its two big-endian bytes as in the
126-class of `WebSocketFrameBuilder::from_bytes`. -/
lemma be16_reconstruct {v : Nat} (hv : v < 65536) :
    (((v % 2 ^ 16) >>> 8 % 2 ^ 8) <<< 8) ||| (v % 2 ^ 8) = v := by
  have hmod : v % 2 ^ 16 = v := Nat.mod_eq_of_lt (by rw [pow16]; omega)
  rw [hmod, Nat.shiftLeft_eq, Nat.shiftRight_eq_div_pow]
  rw [hi_or_lo (Nat.mod_lt v (by norm_num))]
  rw [pow8]
  omega

/-- Reassembling a u64 value from its eight big-endian bytes as in the
127-class of `WebSocketFrameBuilder::from_bytes`. -/
lemma be64_reconstruct {v : Nat} (hv : v < 2 ^ 64) :
    (((((((v >>> 56 % 2 ^ 8) <<< 56 ||| (v >>> 48 % 2 ^ 8) <<< 48) |||
      (v >>> 40 % 2 ^ 8) <<< 40) ||| (v >>> 32 % 2 ^ 8) <<< 32) |||
      (v >>> 24 % 2 ^ 8) <<< 24) ||| (v >>> 16 % 2 ^ 8) <<< 16) |||
      (v >>> 8 % 2 ^ 8) <<< 8) ||| (v % 2 ^ 8) = v := by
  have m8 : ∀ x : Nat, x % 2 ^ 8 < 2 ^ 8 := fun x => Nat.mod_lt x (by norm_num)
  simp only [Nat.shiftLeft_eq]
  rw [hi_or_lo (mul_pow8_lt_pow (m8 (v >>> 48)) 56 rfl)]
  rw [show v >>> 56 % 2 ^ 8 * 2 ^ 56 + v >>> 48 % 2 ^ 8 * 2 ^ 48
      = (v >>> 56 % 2 ^ 8 * 2 ^ 8 + v >>> 48 % 2 ^ 8) * 2 ^ 48 from by ring]
  rw [hi_or_lo (mul_pow8_lt_pow (m8 (v >>> 40)) 48 rfl)]
  rw [show (v >>> 56 % 2 ^ 8 * 2 ^ 8 + v >>> 48 % 2 ^ 8) * 2 ^ 48 + v >>> 40 % 2 ^ 8 * 2 ^ 40
      = ((v >>> 56 % 2 ^ 8 * 2 ^ 8 + v >>> 48 % 2 ^ 8) * 2 ^ 8 + v >>> 40 % 2 ^ 8) * 2 ^ 40
      from by ring]
  rw [hi_or_lo (mul_pow8_lt_pow (m8 (v >>> 32)) 40 rfl)]
  rw [show ((v >>> 56 % 2 ^ 8 * 2 ^ 8 + v >>> 48 % 2 ^ 8) * 2 ^ 8 + v >>> 40 % 2 ^ 8) * 2 ^ 40
      + v >>> 32 % 2 ^ 8 * 2 ^ 32
      = (((v >>> 56 % 2 ^ 8 * 2 ^ 8 + v >>> 48 % 2 ^ 8) * 2 ^ 8 + v >>> 40 % 2 ^ 8) * 2 ^ 8
        + v >>> 32 % 2 ^ 8) * 2 ^ 32 from by ring]
  rw [hi_or_lo (mul_pow8_lt_pow (m8 (v >>> 24)) 32 rfl)]
  rw [show (((v >>> 56 % 2 ^ 8 * 2 ^ 8 + v >>> 48 % 2 ^ 8) * 2 ^ 8 + v >>> 40 % 2 ^ 8) * 2 ^ 8
      + v >>> 32 % 2 ^ 8) * 2 ^ 32 + v >>> 24 % 2 ^ 8 * 2 ^ 24
      = ((((v >>> 56 % 2 ^ 8 * 2 ^ 8 + v >>> 48 % 2 ^ 8) * 2 ^ 8 + v >>> 40 % 2 ^ 8) * 2 ^ 8
        + v >>> 32 % 2 ^ 8) * 2 ^ 8 + v >>> 24 % 2 ^ 8) * 2 ^ 24 from by ring]
  rw [hi_or_lo (mul_pow8_lt_pow (m8 (v >>> 16)) 24 rfl)]
  rw [show ((((v >>> 56 % 2 ^ 8 * 2 ^ 8 + v >>> 48 % 2 ^ 8) * 2 ^ 8 + v >>> 40 % 2 ^ 8) * 2 ^ 8
      + v >>> 32 % 2 ^ 8) * 2 ^ 8 + v >>> 24 % 2 ^ 8) * 2 ^ 24 + v >>> 16 % 2 ^ 8 * 2 ^ 16
      = (((((v >>> 56 % 2 ^ 8 * 2 ^ 8 + v >>> 48 % 2 ^ 8) * 2 ^ 8 + v >>> 40 % 2 ^ 8) * 2 ^ 8
        + v >>> 32 % 2 ^ 8) * 2 ^ 8 + v >>> 24 % 2 ^ 8) * 2 ^ 8 + v >>> 16 % 2 ^ 8) * 2 ^ 16
      from by ring]
  rw [hi_or_lo (mul_pow8_lt_pow (m8 (v >>> 8)) 16 rfl)]
  rw [show (((((v >>> 56 % 2 ^ 8 * 2 ^ 8 + v >>> 48 % 2 ^ 8) * 2 ^ 8 + v >>> 40 % 2 ^ 8) * 2 ^ 8
      + v >>> 32 % 2 ^ 8) * 2 ^ 8 + v >>> 24 % 2 ^ 8) * 2 ^ 8 + v >>> 16 % 2 ^ 8) * 2 ^ 16
      + v >>> 8 % 2 ^ 8 * 2 ^ 8
      = ((((((v >>> 56 % 2 ^ 8 * 2 ^ 8 + v >>> 48 % 2 ^ 8) * 2 ^ 8 + v >>> 40 % 2 ^ 8) * 2 ^ 8
        + v >>> 32 % 2 ^ 8) * 2 ^ 8 + v >>> 24 % 2 ^ 8) * 2 ^ 8 + v >>> 16 % 2 ^ 8) * 2 ^ 8
        + v >>> 8 % 2 ^ 8) * 2 ^ 8 from by ring]
  rw [hi_or_lo (m8 v)]
  rw [pow64] at hv
  simp only [Nat.shiftRight_eq_div_pow]
  norm_num
  omega

lemma drop_cons2 (a b : Nat) (l : List Nat) (i : Nat) :
    (a :: b :: l).drop (i + 2) = l.drop i := rfl

/-- The WebSocket codec round-trip for the frames `encode` actually produces
(unmasked, FIN set): it holds for every payload length `≥ 3` (so the encoded
frame meets the decoder's 5-byte minimum) other than the broken boundary
value 65535. -/
lemma ws_decode_encode (p t : List Nat) (ft : FrameType) (ot : OpType)
    (h3 : 3 ≤ p.length) (hne : p.length ≠ 65535) (h64 : p.length < 2 ^ 64) :
    WebSocketFrameBuilder.from_bytes ((WebSocketFrame.new p ft ot).to_bytes ++ t) =
      (some { frame_type := ot.canonical_frame_type
              header := { op_code := ot.bits, mask := false, payload_len := p.length
                          masking_key := [0, 0, 0, 0] }
              payload_data := p }, t) := by
  have hmod64 : p.length % 2 ^ 64 = p.length := Nat.mod_eq_of_lt h64
  have hop1 : (128 ||| OpType.bits ot) &&& 15 = OpType.bits ot := by cases ot <;> decide
  have hop2 : OpCode.from_bits (OpType.bits ot) = some (OpType.bits ot) := by
    cases ot <;> decide
  have hop3 : WebSocketFrameBuilder.frame_type_of (OpType.bits ot)
      = some ot.canonical_frame_type := by cases ot <;> decide
  rcases Nat.lt_or_ge p.length 126 with h125 | h126
  · -- 7-bit literal length class
    have hm8 : p.length % 2 ^ 8 = p.length := Nat.mod_eq_of_lt (by rw [pow8]; omega)
    have henc : (WebSocketFrame.new p ft ot).to_bytes ++ t
        = (128 ||| ot.bits) :: p.length :: (p ++ t) := by
      have c1 : p.length ≤ 125 := by omega
      have c2 : ¬p.length = 126 := by omega
      have c3 : ¬p.length = 127 := by omega
      simp only [WebSocketFrame.new, WebSocketFrame.to_bytes, hmod64, hm8,
        if_neg Bool.false_ne_true, if_pos c1, Nat.zero_or, if_neg c2, if_neg c3,
        List.cons_append, List.nil_append, List.append_assoc]
    rw [henc]
    have hlen : ((128 ||| ot.bits) :: p.length :: (p ++ t)).length
        = p.length + t.length + 2 := by simp
    have hand : (128 : Nat) &&& p.length = 0 := and128_eq_zero (by omega)
    have h1277 : (127 : Nat) &&& p.length = p.length := and127_eq_self (by omega)
    have hdec : decide ((0 : Nat) > 0) = false := rfl
    simp only [WebSocketFrameBuilder.from_bytes, hlen, List.getD_cons_zero,
      List.getD_cons_succ, hop1, hop2, hop3, hand, h1277, hdec]
    rw [if_neg (by omega)]
    rw [if_pos (show p.length ≤ 125 by omega)]
    rw [if_neg (show ¬((false = true) ∧ p.length + t.length + 2 ≤ 6) by simp)]
    rw [if_neg Bool.false_ne_true, if_neg Bool.false_ne_true]
    rw [if_neg (show ¬(p.length + t.length + 2 < 2 + p.length) by omega)]
    simp only [List.drop_succ_cons, List.drop_zero, List.take_left' rfl]
    have hlav : WebSocketFrame.len_as_vec
        { frame_type := ot.canonical_frame_type
          header := { op_code := ot.bits, mask := false, payload_len := p.length
                      masking_key := [0, 0, 0, 0] }
          payload_data := p } = p.length + 2 := by
      simp only [WebSocketFrame.len_as_vec]
      rw [if_neg (show ¬(125 < p.length ∧ p.length < 65535) by omega)]
      rw [if_neg (show ¬(65535 < p.length) by omega)]
      rw [if_neg Bool.false_ne_true]
      omega
    rw [hlav, drop_cons2, List.drop_left]
  rcases Nat.lt_or_ge p.length 65536 with h16 | h64k
  · -- 16-bit extended length class (126 ≤ length ≤ 65534)
    have henc : (WebSocketFrame.new p ft ot).to_bytes ++ t
        = (128 ||| ot.bits) :: 126 :: ((p.length % 2 ^ 16) >>> 8 % 2 ^ 8) ::
          (p.length % 2 ^ 8) :: (p ++ t) := by
      have c1 : ¬p.length ≤ 125 := by omega
      have c2 : p.length ≤ 65535 := by omega
      simp only [WebSocketFrame.new, WebSocketFrame.to_bytes, hmod64,
        if_neg Bool.false_ne_true, if_neg c1, if_pos c2, Nat.zero_or, if_true,
        List.cons_append, List.nil_append, List.append_assoc]
    rw [henc]
    have hlen : ((128 ||| ot.bits) :: 126 :: ((p.length % 2 ^ 16) >>> 8 % 2 ^ 8) ::
        (p.length % 2 ^ 8) :: (p ++ t)).length = p.length + t.length + 4 := by
      simp
    have hand : (128 : Nat) &&& 126 = 0 := by decide
    have h1277 : (127 : Nat) &&& 126 = 126 := by decide
    have hdec : decide ((0 : Nat) > 0) = false := rfl
    simp only [WebSocketFrameBuilder.from_bytes, hlen, List.getD_cons_zero,
      List.getD_cons_succ, hop1, hop2, hop3, hand, h1277, hdec]
    rw [if_neg (by omega)]
    rw [if_neg (show ¬(126 : Nat) ≤ 125 by omega)]
    rw [be16_reconstruct (show p.length < 65536 by omega)]
    rw [if_neg (show ¬((false = true) ∧ p.length + t.length + 4 ≤ 8) by simp)]
    rw [if_neg Bool.false_ne_true, if_neg Bool.false_ne_true]
    rw [if_neg (show ¬(p.length + t.length + 4 < 4 + p.length) by omega)]
    simp only [List.drop_succ_cons, List.drop_zero, List.take_left' rfl]
    have hlav : WebSocketFrame.len_as_vec
        { frame_type := ot.canonical_frame_type
          header := { op_code := ot.bits, mask := false, payload_len := p.length
                      masking_key := [0, 0, 0, 0] }
          payload_data := p } = p.length + 4 := by
      simp only [WebSocketFrame.len_as_vec]
      rw [if_pos (show 125 < p.length ∧ p.length < 65535 by omega)]
      rw [if_neg Bool.false_ne_true]
      omega
    rw [hlav, drop_cons4, List.drop_left]
    rw [if_pos trivial]
  · -- 64-bit extended length class (length ≥ 65536)
    have henc : (WebSocketFrame.new p ft ot).to_bytes ++ t
        = (128 ||| ot.bits) :: 127 :: (p.length >>> 56 % 2 ^ 8) ::
          (p.length >>> 48 % 2 ^ 8) :: (p.length >>> 40 % 2 ^ 8) ::
          (p.length >>> 32 % 2 ^ 8) :: (p.length >>> 24 % 2 ^ 8) ::
          (p.length >>> 16 % 2 ^ 8) :: (p.length >>> 8 % 2 ^ 8) ::
          (p.length % 2 ^ 8) :: (p ++ t) := by
      have c1 : ¬p.length ≤ 125 := by omega
      have c2 : ¬p.length ≤ 65535 := by omega
      have c3 : ¬(127 : Nat) = 126 := by omega
      simp only [WebSocketFrame.new, WebSocketFrame.to_bytes, hmod64,
        if_neg Bool.false_ne_true, if_neg c1, if_neg c2, Nat.zero_or, if_neg c3, if_true,
        List.cons_append, List.nil_append, List.append_assoc]
    rw [henc]
    have hlen : ((128 ||| ot.bits) :: 127 :: (p.length >>> 56 % 2 ^ 8) ::
        (p.length >>> 48 % 2 ^ 8) :: (p.length >>> 40 % 2 ^ 8) ::
        (p.length >>> 32 % 2 ^ 8) :: (p.length >>> 24 % 2 ^ 8) ::
        (p.length >>> 16 % 2 ^ 8) :: (p.length >>> 8 % 2 ^ 8) ::
        (p.length % 2 ^ 8) :: (p ++ t)).length = p.length + t.length + 10 := by
      simp
    have hand : (128 : Nat) &&& 127 = 0 := by decide
    have h1277 : (127 : Nat) &&& 127 = 127 := by decide
    have hdec : decide ((0 : Nat) > 0) = false := rfl
    simp only [WebSocketFrameBuilder.from_bytes, hlen, List.getD_cons_zero,
      List.getD_cons_succ, hop1, hop2, hop3, hand, h1277, hdec]
    rw [if_neg (by omega)]
    rw [if_neg (show ¬(127 : Nat) ≤ 125 by omega)]
    rw [if_neg (show ¬(127 : Nat) = 126 by decide)]
    rw [if_neg (show ¬(p.length + t.length + 10 < 10) by omega)]
    rw [be64_reconstruct h64]
    rw [if_neg (show ¬((false = true) ∧ p.length + t.length + 10 ≤ 14) by simp)]
    rw [if_neg Bool.false_ne_true, if_neg Bool.false_ne_true]
    rw [if_neg (show ¬(p.length + t.length + 10 < 10 + p.length) by omega)]
    simp only [List.drop_succ_cons, List.drop_zero, List.take_left' rfl]
    have hlav : WebSocketFrame.len_as_vec
        { frame_type := ot.canonical_frame_type
          header := { op_code := ot.bits, mask := false, payload_len := p.length
                      masking_key := [0, 0, 0, 0] }
          payload_data := p } = p.length + 2 + 4 + 4 := by
      simp only [WebSocketFrame.len_as_vec]
      rw [if_neg (show ¬(125 < p.length ∧ p.length < 65535) by omega)]
      rw [if_pos (show 65535 < p.length by omega)]
      rw [if_neg Bool.false_ne_true]
      omega
    rw [hlav, drop_cons4, drop_cons4, drop_cons2, List.drop_left]

/-- The wrapping accumulator computes the plain byte sum modulo 2^32. -/
lemma c32sum_eq_sum_mod (p : List Nat) : c32sum p = p.sum % 2 ^ 32 := by
  have key : ∀ (xs : List Nat) (acc : Nat),
      xs.foldl (fun c b => (c + b) % 2 ^ 32) (acc % 2 ^ 32) = (acc + xs.sum) % 2 ^ 32 := by
    intro xs
    induction xs with
    | nil => intro acc; simp
    | cons x xs ih =>
      intro acc
      have h1 : (acc % 2 ^ 32 + x) % 2 ^ 32 = (acc + x) % 2 ^ 32 := by
        rw [Nat.mod_add_mod]
      simp only [List.foldl_cons, h1]
      rw [ih (acc + x)]
      rw [List.sum_cons]
      ring_nf
  have := key p 0
  simpa [c32sum] using this

lemma sum_le_255_mul (p : List Nat) (hb : ∀ b ∈ p, b ≤ 255) : p.sum ≤ 255 * p.length := by
  induction p with
  | nil => simp
  | cons x xs ih =>
    have hx : x ≤ 255 := hb x (List.mem_cons_self x xs)
    have hxs := ih (fun b hm => hb b (List.mem_cons_of_mem x hm))
    simp only [List.sum_cons, List.length_cons]
    calc x + xs.sum ≤ 255 + 255 * xs.length := by omega
      _ = 255 * (xs.length + 1) := by ring

lemma sum_replicate_255 (n : Nat) : (List.replicate n 255).sum = n * 255 := by
  induction n with
  | zero => simp
  | succ n ih => simp [List.replicate_succ, ih]; ring

/-- `getD` on an append, with the left length given by an equation. -/
lemma getD_append_add_len {q l2 : List Nat} {n : Nat} (h : q.length = n) (k d : Nat) :
    (q ++ l2).getD (n + k) d = l2.getD k d := by
  subst h
  exact getD_append_add k d

lemma getD_append_self_len {q l2 : List Nat} {n : Nat} (h : q.length = n) (d : Nat) :
    (q ++ l2).getD n d = l2.getD 0 d := by
  subst h
  exact getD_append_self d

/-- Mutating one payload byte of an encoded Checksum32 frame always trips the
checksum comparison: the decode returns no frame and empties the buffer. -/
lemma c32_mutation (p : List Nat) (i b : Nat) (hb : ∀ x ∈ p, x < 256)
    (hlen : p.length < 4294967296) (hi : i < p.length) (hb256 : b < 256)
    (hne : b ≠ p.getD i 0) :
    Checksum32FrameBuilder.from_bytes ((Checksum32Frame.new p).to_bytes.set (4 + i) b)
      = (none, []) := by
  have hclt : c32sum p < 4294967296 := by have := c32sum_lt p; rw [pow32] at this; omega
  have hq : (Checksum32Frame.new p).to_bytes.set (4 + i) b
      = (p.length >>> 24 % 2 ^ 8) :: (p.length >>> 16 % 2 ^ 8) :: (p.length >>> 8 % 2 ^ 8) ::
        (p.length % 2 ^ 8) ::
        ((p.set i b) ++ ((c32sum p >>> 24 % 2 ^ 8) :: (c32sum p >>> 16 % 2 ^ 8) ::
          (c32sum p >>> 8 % 2 ^ 8) :: (c32sum p % 2 ^ 8) :: [])) := by
    simp only [Checksum32Frame.new, Checksum32Frame.to_bytes]
    rw [show 4 + i = i + 4 from by omega]
    rw [show ∀ (a0 a1 a2 a3 : Nat) (l : List Nat) (j : Nat) (x : Nat),
        (a0 :: a1 :: a2 :: a3 :: l).set (j + 4) x = a0 :: a1 :: a2 :: a3 :: l.set j x
        from fun _ _ _ _ _ _ _ => rfl]
    rw [List.set_append_left _ _ hi]
  rw [hq]
  have hlset : (p.set i b).length = p.length := List.length_set p i b
  have hlen2 : ((p.length >>> 24 % 2 ^ 8) :: (p.length >>> 16 % 2 ^ 8) ::
      (p.length >>> 8 % 2 ^ 8) :: (p.length % 2 ^ 8) ::
      ((p.set i b) ++ ((c32sum p >>> 24 % 2 ^ 8) :: (c32sum p >>> 16 % 2 ^ 8) ::
        (c32sum p >>> 8 % 2 ^ 8) :: (c32sum p % 2 ^ 8) :: []))).length
      = p.length + 8 := by
    simp [hlset]
  have hgd : p.getD i 0 = p[i] := by
    simp [List.getD_eq_getElem?_getD, List.getElem?_eq_getElem hi]
  have hsumq : (p.set i b).sum + p.getD i 0 = p.sum + b := by
    have hsig : (List.take i p).sum + (List.drop i p).sum = p.sum := by
      rw [← List.sum_append, List.take_append_drop]
    have hdrop := List.drop_eq_getElem_cons hi
    have hset := List.set_eq_take_cons_drop b hi
    rw [hset, hgd, List.sum_append, List.sum_cons]
    rw [hdrop, List.sum_cons] at hsig
    omega
  have hcne : ¬(c32sum p = c32sum (p.set i b)) := by
    intro heq
    rw [c32sum_eq_sum_mod, c32sum_eq_sum_mod] at heq
    have hx : p.getD i 0 < 256 := by
      rw [hgd]
      exact hb _ (List.getElem_mem hi)
    rw [pow32] at heq
    omega
  simp only [Checksum32FrameBuilder.from_bytes, hlen2, List.getD_cons_zero,
    List.getD_cons_succ, be32_reconstruct hlen]
  rw [if_neg (by omega), if_neg (by omega)]
  simp only [List.drop_succ_cons, List.drop_zero, List.take_left' hlset,
    getD_append_self_len hlset, getD_append_add_len hlset, List.getD_cons_zero,
    List.getD_cons_succ, be32_reconstruct hclt]
  rw [if_pos hcne]

/-- Every `None` return of the Simple decoder leaves the buffer unchanged;
every `Some` return drops `len_as_vec` bytes. -/
lemma simple_fb_cases (buf : List Nat) :
    SimpleFrameBuilder.from_bytes buf = (none, buf) ∨
      ∃ f, SimpleFrameBuilder.from_bytes buf = (some f, buf.drop f.len_as_vec) := by
  simp only [SimpleFrameBuilder.from_bytes]
  repeat' split
  all_goals first
    | exact Or.inl rfl
    | exact Or.inr ⟨_, rfl⟩

/-- Every `None` return of the WebSocket decoder leaves the buffer
unchanged. -/
lemma ws_fb_cases (buf : List Nat) :
    WebSocketFrameBuilder.from_bytes buf = (none, buf) ∨
      ∃ f, WebSocketFrameBuilder.from_bytes buf = (some f, buf.drop f.len_as_vec) := by
  simp only [WebSocketFrameBuilder.from_bytes]
  repeat' split
  all_goals first
    | exact Or.inl rfl
    | exact Or.inr ⟨_, rfl⟩

lemma c32_fb_insufficient (buf : List Nat)
    (h : buf.length < 9 ∨ buf.length - 8 < c32_declared_len buf) :
    Checksum32FrameBuilder.from_bytes buf = (none, buf) := by
  by_cases h9 : buf.length < 9
  · simp only [Checksum32FrameBuilder.from_bytes, if_pos h9]
  · rcases h with h | h
    · exact absurd h h9
    · simp only [c32_declared_len] at h
      simp only [Checksum32FrameBuilder.from_bytes, if_neg h9, if_pos h]

/-- Decoded form of a Simple frame produced by `encode`. -/
lemma simple_fb_nil : SimpleFrameBuilder.from_bytes [] = (none, []) := rfl

lemma drain_frames_succ {F : Type} (dec : List Nat → Option F × List Nat)
    (n : Nat) (buf : List Nat) (acc : List F) :
    drain_frames dec (n + 1) buf acc =
      match dec buf with
      | (none, buf2) => (acc.reverse, buf2, true)
      | (some f, buf2) => drain_frames dec n buf2 (f :: acc) := rfl

lemma drain_simple (ps : List (List Nat)) :
    ∀ acc : List SimpleFrame, (∀ p ∈ ps, 1 ≤ p.length ∧ p.length ≤ 65531) →
      drain_frames SimpleFrameBuilder.from_bytes (ps.length + 1)
        ((ps.map fun p => (SimpleFrame.new p).to_bytes).flatten) acc
      = (acc.reverse ++ ps.map (fun p =>
          { start_guard := 1, payload_len := p.length, payload := p, end_guard := 23 }),
        [], true) := by
  induction ps with
  | nil =>
    intro acc _
    simp [drain_frames, simple_fb_nil]
  | cons p ps ih =>
    intro acc hp
    obtain ⟨h1, h2⟩ := hp p (List.mem_cons_self p ps)
    have hrest : ∀ q ∈ ps, 1 ≤ q.length ∧ q.length ≤ 65531 :=
      fun q hq => hp q (List.mem_cons_of_mem p hq)
    simp only [List.map_cons, List.flatten_cons, List.length_cons]
    rw [drain_frames_succ]
    simp only [simple_decode_encode p _ h1 h2]
    rw [ih _ hrest]
    simp

lemma nb_read_loop_zero (n : Nat) (rx : List Nat) :
    Plain.nb_read_loop rx (List.replicate n (.bytes [])) = .noMoreEvents rx := by
  induction n generalizing rx with
  | zero => rfl
  | succ n ih =>
    simp only [List.replicate_succ, Plain.nb_read_loop, List.append_nil]
    exact ih rx

lemma b_recv_loop_zero (n : Nat) :
    Plain.b_recv_loop SimpleFrameBuilder.from_bytes [] (List.replicate n (.bytes []))
      = (.noMoreEvents, []) := by
  induction n with
  | zero => rfl
  | succ n ih =>
    simp only [List.replicate_succ, Plain.b_recv_loop, List.append_nil, simple_fb_nil]
    exact ih

/-- Length of the encoding of an unmasked frame in the 16-bit length class. -/
lemma ws_encode_len_16bit (p : List Nat) (ft : FrameType) (ot : OpType)
    (hc1 : ¬p.length ≤ 125) (hc2 : p.length ≤ 65535) :
    ((WebSocketFrame.new p ft ot).to_bytes).length = 4 + p.length := by
  have hmod64 : p.length % 2 ^ 64 = p.length := Nat.mod_eq_of_lt (by rw [pow64]; omega)
  simp only [WebSocketFrame.new, WebSocketFrame.to_bytes, hmod64,
    if_neg Bool.false_ne_true, if_neg hc1, if_pos hc2, Nat.zero_or, if_true,
    List.cons_append, List.nil_append, List.append_assoc]
  simp [List.length_cons, List.length_append]
  omega

/-! ### Claim theorems -/

/-- C1 (counterexample): the round-trip fails as stated. The WebSocket
encoding of the empty payload is the 2-byte buffer `[130, 0]`, but
`from_bytes` refuses any buffer shorter than 5 bytes, so decoding a buffer
that begins with (indeed, equals) the encoding of `[]` yields no frame. -/
theorem c1_counterexample :
    (WebSocketFrame.new [] FrameType.Data OpType.Binary).to_bytes = [130, 0] ∧
    WebSocketFrameBuilder.from_bytes ((WebSocketFrame.new [] FrameType.Data OpType.Binary).to_bytes)
      = (none, [130, 0]) := by
  decide

/-- C1 (amended): the round-trip holds for Simple payloads of length 1..65531,
Checksum32 payloads of length 1..16843009, and WebSocket payloads of length
at least 3 and different from 65535: decoding a buffer that begins with the
encoding of P succeeds, the decoded frame's payload() equals P, and exactly
the encoded frame's bytes are consumed, leaving trailing bytes intact. -/
theorem c1_roundtrip_amended :
    (∀ p t : List Nat, 1 ≤ p.length → p.length ≤ 65531 →
      (SimpleFrameBuilder.from_bytes ((SimpleFrame.new p).to_bytes ++ t)).1.map
          SimpleFrame.payload = some p ∧
      (SimpleFrameBuilder.from_bytes ((SimpleFrame.new p).to_bytes ++ t)).2 = t) ∧
    (∀ p t : List Nat, 1 ≤ p.length → p.length ≤ 16843009 →
      (Checksum32FrameBuilder.from_bytes ((Checksum32Frame.new p).to_bytes ++ t)).1.map
          Checksum32Frame.payload = some p ∧
      (Checksum32FrameBuilder.from_bytes ((Checksum32Frame.new p).to_bytes ++ t)).2 = t) ∧
    (∀ (p t : List Nat) (ft : FrameType) (ot : OpType),
      3 ≤ p.length → p.length ≠ 65535 → p.length < 2 ^ 64 →
      (WebSocketFrameBuilder.from_bytes ((WebSocketFrame.new p ft ot).to_bytes ++ t)).1.map
          WebSocketFrame.payload_vec = some p ∧
      (WebSocketFrameBuilder.from_bytes ((WebSocketFrame.new p ft ot).to_bytes ++ t)).2 = t) := by
  refine ⟨?_, ?_, ?_⟩
  · intro p t h1 h2
    rw [simple_decode_encode p t h1 h2]
    exact ⟨rfl, rfl⟩
  · intro p t h1 h2
    rw [c32_decode_encode p t h1 (by omega)]
    exact ⟨rfl, rfl⟩
  · intro p t ft ot h3 hne h64
    rw [ws_decode_encode p t ft ot h3 hne h64]
    constructor
    · simp [WebSocketFrame.payload_vec]
    · rfl

/-- C1 (witness): the amended round-trip evaluated at concrete payloads. -/
theorem c1_roundtrip_amended_witness :
    ((SimpleFrameBuilder.from_bytes ((SimpleFrame.new [1, 2, 3, 4]).to_bytes ++ [9])).1.map
        SimpleFrame.payload = some [1, 2, 3, 4] ∧
      (SimpleFrameBuilder.from_bytes ((SimpleFrame.new [1, 2, 3, 4]).to_bytes ++ [9])).2 = [9]) ∧
    ((Checksum32FrameBuilder.from_bytes ((Checksum32Frame.new [10, 20, 30]).to_bytes ++ [7])).1.map
        Checksum32Frame.payload = some [10, 20, 30] ∧
      (Checksum32FrameBuilder.from_bytes ((Checksum32Frame.new [10, 20, 30]).to_bytes ++ [7])).2 = [7]) ∧
    ((WebSocketFrameBuilder.from_bytes
        ((WebSocketFrame.new [1, 2, 3] FrameType.Data OpType.Binary).to_bytes ++ [8])).1.map
        WebSocketFrame.payload_vec = some [1, 2, 3] ∧
      (WebSocketFrameBuilder.from_bytes
        ((WebSocketFrame.new [1, 2, 3] FrameType.Data OpType.Binary).to_bytes ++ [8])).2 = [8]) :=
  ⟨c1_roundtrip_amended.1 [1, 2, 3, 4] [9] (by decide) (by decide),
   c1_roundtrip_amended.2.1 [10, 20, 30] [7] (by decide) (by decide),
   c1_roundtrip_amended.2.2 [1, 2, 3] [8] FrameType.Data OpType.Binary (by decide) (by decide)
     (by decide)⟩

/-- C2: evaluating `Plain::nb_send` at the failing input. When the channel
write reports a `WouldBlock` error, the call reports would-block but the
transmit buffer is left empty: the six encoded bytes that were swapped out
are silently dropped, contradicting the claim that exactly the unwritten
suffix (here: everything) is retained. The last two conjuncts document the
paths that do behave as claimed: a short write `Ok(2)` retains exactly the
unwritten suffix, and a following send writes the retained bytes before the
newly queued frame's bytes. -/
theorem c2_send_wouldblock_loses_bytes :
    Plain.nb_send [] ((SimpleFrame.new [1, 2]).to_bytes) WriteResult.errWouldBlock
      = (SendOut.err ErrKind.wouldBlock, []) ∧
    (SimpleFrame.new [1, 2]).to_bytes = [1, 0, 2, 1, 2, 23] ∧
    Plain.nb_send [] [1, 0, 2, 1, 2, 23] (WriteResult.wrote 2)
      = (SendOut.err ErrKind.wouldBlock, [2, 1, 2, 23]) ∧
    Plain.nb_send [2, 1, 2, 23] [1, 0, 1, 9, 23] (WriteResult.wrote 9)
      = (SendOut.ok, []) := by
  decide

/-- C3 (counterexample): a buffer whose first byte is 0 (not the start guard
0x01) still yields a frame: the start-guard check only logs and never
rejects. -/
theorem c3_counterexample :
    (SimpleFrameBuilder.from_bytes [0, 0, 0, 23, 0]).1
      = some { start_guard := 0, payload_len := 0, payload := [], end_guard := 23 } := by
  decide

/-- C3 (amended): Simple decode never rejects on the start byte. A buffer
not beginning with 0x01 can still yield a (spurious) frame — both for a
first byte inside the flag mask (0) and outside it (0xFF, where the frame
keeps the default start guard); whether a frame is decoded and its payload
are independent of the first byte; and when no frame is returned the buffer
is left unchanged, so no skip-to-next-start resynchronization occurs. -/
theorem c3_amended :
    SimpleFrameBuilder.from_bytes [255, 0, 0, 23, 9]
      = (some { start_guard := 1, payload_len := 0, payload := [], end_guard := 23 }, [9]) ∧
    (∀ (b c : Nat) (rest : List Nat),
      (SimpleFrameBuilder.from_bytes (b :: rest)).1.map SimpleFrame.payload
        = (SimpleFrameBuilder.from_bytes (c :: rest)).1.map SimpleFrame.payload) ∧
    (∀ buf : List Nat, (SimpleFrameBuilder.from_bytes buf).1 = none →
      (SimpleFrameBuilder.from_bytes buf).2 = buf) := by
  refine ⟨by decide, ?_, ?_⟩
  · intro b c rest
    simp only [SimpleFrameBuilder.from_bytes, List.length_cons, List.getD_cons_succ,
      List.getD_cons_zero, List.drop_succ_cons]
    by_cases h5 : rest.length + 1 < 5
    · rw [if_pos h5, if_pos h5]
    · rw [if_neg h5, if_neg h5]
      by_cases hins : rest.length + 1 - 4 < ((rest.getD 0 0) <<< 8 &&& 65535) ||| rest.getD 1 0
      · rw [if_pos hins, if_pos hins]
      · rw [if_neg hins, if_neg hins]
        cases hfb : FrameGuard.from_bits
            (rest.getD ((((rest.getD 0 0) <<< 8 &&& 65535) ||| rest.getD 1 0) + 2) 0) with
        | none => rfl
        | some e => rfl
  · intro buf h
    rcases simple_fb_cases buf with hc | ⟨f, hc⟩
    · rw [hc]
    · rw [hc] at h
      simp at h

/-- C3 (witness): the buffer-preservation conjunct applied at a concrete
short buffer. -/
theorem c3_amended_witness :
    (SimpleFrameBuilder.from_bytes [2]).1 = none ∧
    (SimpleFrameBuilder.from_bytes [2]).2 = [2] :=
  ⟨by decide, c3_amended.2.2 [2] (by decide)⟩

/-- The frame built by `WebSocketFrame::new` on a 65535-byte payload. -/
lemma ws_new_65535_eq : WebSocketFrame.new (List.replicate 65535 0) FrameType.Data OpType.Binary
    = { frame_type := FrameType.Data
        header := { op_code := 2, mask := false, payload_len := 65535
                    masking_key := [0, 0, 0, 0] }
        payload_data := List.replicate 65535 0 } := by
  simp only [WebSocketFrame.new, OpType.bits, OpCode.BINARY, List.length_replicate]
  norm_num

/-- The frame built by `SimpleFrame::new` on a 65532-byte payload. -/
lemma simple_new_65532_eq : SimpleFrame.new (List.replicate 65532 0)
    = { start_guard := 1, payload_len := 65532, payload := List.replicate 65532 0
        end_guard := 23 } := by
  simp only [SimpleFrame.new, FrameGuard.START, FrameGuard.END, List.length_replicate]
  norm_num

lemma ws_boundary_len_as_vec :
    (WebSocketFrame.new (List.replicate 65535 0) FrameType.Data OpType.Binary).len_as_vec
      = 65537 := by
  rw [ws_new_65535_eq]
  decide

lemma ws_boundary_to_bytes_len :
    ((WebSocketFrame.new (List.replicate 65535 0) FrameType.Data OpType.Binary).to_bytes).length
      = 65539 := by
  have h := ws_encode_len_16bit (List.replicate 65535 0) FrameType.Data OpType.Binary
    (by rw [List.length_replicate]; omega) (by rw [List.length_replicate])
  rw [List.length_replicate] at h
  exact h

lemma ws_masked130_len_as_vec :
    (WebSocketFrame.mk FrameType.Data ⟨2, true, 130, [1, 2, 3, 4]⟩
      (List.replicate 130 9)).len_as_vec = 138 := by
  decide

lemma ws_masked130_to_bytes_len :
    ((WebSocketFrame.mk FrameType.Data ⟨2, true, 130, [1, 2, 3, 4]⟩
      (List.replicate 130 9)).to_bytes).length = 136 := by
  decide

lemma simple_65532_len_as_vec :
    (SimpleFrame.new (List.replicate 65532 0)).len_as_vec = 0 := by
  rw [simple_new_65532_eq]
  decide

lemma simple_to_bytes_len (f : SimpleFrame) :
    (f.to_bytes).length = f.payload.length + 4 := by
  simp [SimpleFrame.to_bytes]

lemma simple_65532_to_bytes_len :
    ((SimpleFrame.new (List.replicate 65532 0)).to_bytes).length = 65536 := by
  have h := simple_to_bytes_len (SimpleFrame.new (List.replicate 65532 0))
  have hp : (SimpleFrame.new (List.replicate 65532 0)).payload.length = 65532 := by
    simp only [SimpleFrame.new]
    exact List.length_replicate 65532 0
  rw [hp] at h
  exact h

/-- C4: `len_as_vec` does not always equal `to_bytes().len()`. For an
unmasked WebSocket frame with payload length 65535 `len_as_vec` misses the
two extended-length bytes (65537 vs 65539); for a masked frame with payload
length 130 — exactly what `from_bytes` builds for masked wire data —
`to_bytes` omits the extended-length bytes (138 vs 136); and for a
Simple frame with payload length 65532 the u16 addition in `len_as_vec`
wraps to 0 while the encoding is 65536 bytes long. -/
theorem c4_len_as_vec_mismatch :
    (WebSocketFrame.new (List.replicate 65535 0) FrameType.Data OpType.Binary).len_as_vec
      = 65537 ∧
    ((WebSocketFrame.new (List.replicate 65535 0) FrameType.Data OpType.Binary).to_bytes).length
      = 65539 ∧
    (WebSocketFrame.mk FrameType.Data ⟨2, true, 130, [1, 2, 3, 4]⟩
        (List.replicate 130 9)).len_as_vec = 138 ∧
    ((WebSocketFrame.mk FrameType.Data ⟨2, true, 130, [1, 2, 3, 4]⟩
        (List.replicate 130 9)).to_bytes).length = 136 ∧
    (SimpleFrame.new (List.replicate 65532 0)).len_as_vec = 0 ∧
    ((SimpleFrame.new (List.replicate 65532 0)).to_bytes).length = 65536 :=
  ⟨ws_boundary_len_as_vec, ws_boundary_to_bytes_len, ws_masked130_len_as_vec,
    ws_masked130_to_bytes_len, simple_65532_len_as_vec, simple_65532_to_bytes_len⟩

/-- C5: one non-blocking receive call on a buffer holding the concatenation
of K complete Simple frames (delivered by a single channel read, followed by
the would-block break) returns exactly the K decoded frames in their
original order with the buffer fully consumed; if the first decode on the
drained bytes yields nothing, the call reports would-block; and the three
outcomes frames/would-block/fatal are pairwise distinct. -/
theorem c5_coalesced_delivery :
    (∀ ps : List (List Nat), ps ≠ [] → (∀ p ∈ ps, 1 ≤ p.length ∧ p.length ≤ 65531) →
      Plain.nb_recv SimpleFrameBuilder.from_bytes (ps.length + 1) []
          [ReadEvent.bytes ((ps.map fun p => (SimpleFrame.new p).to_bytes).flatten),
            ReadEvent.errWouldBlock]
        = (NbRecvOut.frames (ps.map fun p =>
            { start_guard := 1, payload_len := p.length, payload := p, end_guard := 23 }),
          [])) ∧
    (∀ buf : List Nat, (SimpleFrameBuilder.from_bytes buf).1 = none →
      (Plain.nb_recv SimpleFrameBuilder.from_bytes 1 []
          [ReadEvent.bytes buf, ReadEvent.errWouldBlock]).1 = NbRecvOut.wouldBlock) ∧
    (∀ fs : List SimpleFrame,
      NbRecvOut.frames fs ≠ NbRecvOut.wouldBlock ∧
      NbRecvOut.frames fs ≠ NbRecvOut.fatal ErrKind.other ∧
      (NbRecvOut.wouldBlock : NbRecvOut SimpleFrame) ≠ NbRecvOut.fatal ErrKind.other) := by
  refine ⟨?_, ?_, ?_⟩
  · intro ps hne hp
    have hpos : 0 < ps.length := List.length_pos.mpr hne
    simp only [Plain.nb_recv, Plain.nb_read_loop, List.nil_append]
    rw [drain_simple ps [] hp]
    simp [hpos]
  · intro buf h
    rcases simple_fb_cases buf with hc | ⟨f, hc⟩
    · simp only [Plain.nb_recv, Plain.nb_read_loop, List.nil_append, drain_frames_succ, hc]
      simp
    · rw [hc] at h
      simp at h
  · intro fs
    refine ⟨fun h => ?_, fun h => ?_, fun h => ?_⟩ <;> exact NbRecvOut.noConfusion h

/-- C5 (witness): two concrete frames delivered in one read decode to the
two payloads in order. -/
theorem c5_coalesced_delivery_witness :
    Plain.nb_recv SimpleFrameBuilder.from_bytes (([[1, 2, 3, 4], [5]] : List (List Nat)).length + 1) []
        [ReadEvent.bytes ((([[1, 2, 3, 4], [5]] : List (List Nat)).map
            fun p => (SimpleFrame.new p).to_bytes).flatten),
          ReadEvent.errWouldBlock]
      = (NbRecvOut.frames (([[1, 2, 3, 4], [5]] : List (List Nat)).map fun p =>
          { start_guard := 1, payload_len := p.length, payload := p, end_guard := 23 }), []) :=
  c5_coalesced_delivery.1 [[1, 2, 3, 4], [5]] (by decide) (by decide)

/-- C6: the Checksum32 encoding of `[10,20,30]` carries trailing checksum 60;
mutating any single payload byte of any encoded frame to a different byte
value makes the decode return no frame and empty the whole buffer; and the
engine treats this as recoverable, reporting would-block rather than a
fatal error. -/
theorem c6_checksum_corruption :
    (Checksum32Frame.new [10, 20, 30]).to_bytes = [0, 0, 0, 3, 10, 20, 30, 0, 0, 0, 60] ∧
    (∀ (p : List Nat) (i b : Nat), (∀ x ∈ p, x < 256) → p.length < 4294967296 →
      i < p.length → b < 256 → b ≠ p.getD i 0 →
      Checksum32FrameBuilder.from_bytes ((Checksum32Frame.new p).to_bytes.set (4 + i) b)
        = (none, [])) ∧
    (∀ (p : List Nat) (i b : Nat), (∀ x ∈ p, x < 256) → p.length < 4294967296 →
      i < p.length → b < 256 → b ≠ p.getD i 0 →
      (Plain.nb_recv Checksum32FrameBuilder.from_bytes 1 []
        [ReadEvent.bytes ((Checksum32Frame.new p).to_bytes.set (4 + i) b),
          ReadEvent.errWouldBlock]).1 = NbRecvOut.wouldBlock) := by
  refine ⟨by decide, ?_, ?_⟩
  · intro p i b hb hlen hi hb256 hne
    exact c32_mutation p i b hb hlen hi hb256 hne
  · intro p i b hb hlen hi hb256 hne
    have hc := c32_mutation p i b hb hlen hi hb256 hne
    simp only [Plain.nb_recv, Plain.nb_read_loop, List.nil_append, drain_frames_succ, hc]
    simp

/-- C6 (witness): mutating payload byte 20 to 21 in the encoded frame for
`[10,20,30]` kills the decode and empties the buffer. -/
theorem c6_checksum_corruption_witness :
    Checksum32FrameBuilder.from_bytes ((Checksum32Frame.new [10, 20, 30]).to_bytes.set 5 21)
      = (none, []) ∧
    (Plain.nb_recv Checksum32FrameBuilder.from_bytes 1 []
        [ReadEvent.bytes ((Checksum32Frame.new [10, 20, 30]).to_bytes.set 5 21),
          ReadEvent.errWouldBlock]).1 = NbRecvOut.wouldBlock :=
  ⟨c6_checksum_corruption.2.1 [10, 20, 30] 1 21 (by decide) (by decide) (by decide) (by decide)
      (by decide),
    c6_checksum_corruption.2.2 [10, 20, 30] 1 21 (by decide) (by decide) (by decide) (by decide)
      (by decide)⟩

/-- C7: when decode returns no frame the buffer is left completely
unmodified — for Simple and WebSocket this holds for every `None` return
(which subsumes the two insufficient-data cases), and for Checksum32 it
holds for both insufficient-data cases: fewer bytes than the 9-byte minimum,
or a declared payload length exceeding the buffered bytes. -/
theorem c7_insufficient_data_preserves_buffer :
    (∀ buf : List Nat, (SimpleFrameBuilder.from_bytes buf).1 = none →
      (SimpleFrameBuilder.from_bytes buf).2 = buf) ∧
    (∀ buf : List Nat, (WebSocketFrameBuilder.from_bytes buf).1 = none →
      (WebSocketFrameBuilder.from_bytes buf).2 = buf) ∧
    (∀ buf : List Nat, buf.length < 9 ∨ buf.length - 8 < c32_declared_len buf →
      Checksum32FrameBuilder.from_bytes buf = (none, buf)) := by
  refine ⟨?_, ?_, c32_fb_insufficient⟩
  · intro buf h
    rcases simple_fb_cases buf with hc | ⟨f, hc⟩
    · rw [hc]
    · rw [hc] at h
      simp at h
  · intro buf h
    rcases ws_fb_cases buf with hc | ⟨f, hc⟩
    · rw [hc]
    · rw [hc] at h
      simp at h

/-- C7 (witness): a 2-byte buffer is below every codec's minimum and is left
unchanged by all three decoders. -/
theorem c7_insufficient_data_preserves_buffer_witness :
    (SimpleFrameBuilder.from_bytes [1, 0]).2 = [1, 0] ∧
    (WebSocketFrameBuilder.from_bytes [1, 0]).2 = [1, 0] ∧
    Checksum32FrameBuilder.from_bytes [1, 0] = (none, [1, 0]) :=
  ⟨c7_insufficient_data_preserves_buffer.1 [1, 0] (by decide),
    c7_insufficient_data_preserves_buffer.2.1 [1, 0] (by decide),
    c7_insufficient_data_preserves_buffer.2.2 [1, 0] (Or.inl (by decide))⟩

/-- C8: evaluating the receive paths on a closed channel. A TCP read on a
peer-closed socket returns `Ok(0)`; for every number n of such zero-byte
reads, `Plain::b_recv` and `Plain::nb_recv` are still inside their read
loops (no fatal error is ever produced, the loop spins forever), while
`Secure::nb_recv` maps the TLS `ZeroReturn` to a fatal `UnexpectedEof` as
the claim demands. -/
theorem c8_eof_infinite_loop :
    (∀ n : Nat, Plain.b_recv SimpleFrameBuilder.from_bytes []
        (List.replicate n (ReadEvent.bytes []))
      = (BRecvOut.noMoreEvents, [])) ∧
    (∀ n : Nat, Plain.nb_recv SimpleFrameBuilder.from_bytes 1 []
        (List.replicate n (ReadEvent.bytes []))
      = (NbRecvOut.stuck, [])) ∧
    Secure.nb_recv SimpleFrameBuilder.from_bytes 1 [] [SslReadEvent.zeroReturn]
      = (NbRecvOut.fatal ErrKind.unexpectedEof, []) := by
  refine ⟨?_, ?_, rfl⟩
  · intro n
    simp only [Plain.b_recv, simple_fb_nil]
    exact b_recv_loop_zero n
  · intro n
    simp only [Plain.nb_recv, nb_read_loop_zero n]

/-- C9: under the documented cap the running u32 checksum sum never
overflows: for every payload of at most 16,843,009 bytes the plain byte sum
is at most u32::MAX = 255 * 16,843,009, so the (wrapping) accumulator
`c32sum` computes the exact sum; and the cap is tight — one byte more
admits an all-0xFF payload whose sum exceeds u32::MAX. -/
theorem c9_checksum_cap :
    (∀ p : List Nat, (∀ b ∈ p, b ≤ 255) → p.length ≤ 16843009 →
      p.sum ≤ 4294967295 ∧ c32sum p = p.sum) ∧
    255 * 16843009 = 4294967295 ∧
    (∃ p : List Nat, p.length = 16843010 ∧ (∀ b ∈ p, b ≤ 255) ∧ 4294967295 < p.sum) := by
  refine ⟨?_, by norm_num, ?_⟩
  · intro p hb hlen
    have hs := sum_le_255_mul p hb
    have hsum : p.sum ≤ 4294967295 := by omega
    refine ⟨hsum, ?_⟩
    rw [c32sum_eq_sum_mod]
    exact Nat.mod_eq_of_lt (by rw [pow32]; omega)
  · refine ⟨List.replicate 16843010 255, List.length_replicate 16843010 255, ?_, ?_⟩
    · intro b hbm
      rw [List.eq_of_mem_replicate hbm]
    · rw [sum_replicate_255]
      norm_num

/-- C9 (witness): the no-overflow statement at a concrete payload. -/
theorem c9_checksum_cap_witness :
    ([10, 20, 30] : List Nat).sum ≤ 4294967295 ∧ c32sum [10, 20, 30] = ([10, 20, 30] : List Nat).sum :=
  c9_checksum_cap.1 [10, 20, 30] (by decide) (by decide)

/-- C10: the Simple codec validates guard bytes by bitflags subset
acceptance against 0b00010111, not by equality: a final byte 0x16 (≠ 0x17)
inside the mask is accepted as an end guard and a frame is returned, and a
first byte 0x07 (≠ 0x01) inside the mask is accepted and stored as the
frame's start guard. -/
theorem c10_bitflags_subset_acceptance :
    (SimpleFrameBuilder.from_bytes [1, 0, 0, 22, 9]).1
      = some { start_guard := 1, payload_len := 0, payload := [], end_guard := 22 } ∧
    (SimpleFrameBuilder.from_bytes [7, 0, 0, 23, 9]).1
      = some { start_guard := 7, payload_len := 0, payload := [], end_guard := 23 } ∧
    (22 : Nat) ≠ 23 ∧ (7 : Nat) ≠ 1 := by
  decide

end SimpleStream